import Mathlib

/-!
Verification of the ARTHAX data-aggregation client and tolerant response
pipeline against its natural-language specification.

The Python sources embedded here are:
  * `src/tools/home_loan_affordability.py` — `fetch_data_from_mcp` (the
    per-category Record Fetcher), `get_full_financial_context_from_mcp_shared`
    (the Context Aggregator), and `_call_gemini_and_parse_json` (the tolerant
    JSON extractor over a model response);
  * `src/tools/analyse_spending_patterns.py` — the identical extraction scan
    inside `analyze_financial_data` (lines 158-174).

Python values that flow through this code (JSON payloads, dicts built by the
functions) are embedded as the `PyJson` type.  Python dicts are association
lists in insertion order with unique keys (assignment replaces in place, as
CPython dicts do).  JSON numbers are kept as their source lexeme, which is
enough structure for the truthiness test (`not parsed_data[key]`) and for all
payload comparisons made by the code.  `json.loads` is embedded as `jsonLoads`,
a fuel-based recursive-descent parser following CPython's `json` module
(ws = space/tab/LF/CR, strict strings, `NaN`/`Infinity`/`-Infinity` accepted,
duplicate keys resolved last-value-wins at first position); error detail
strings reproduce CPython's `JSONDecodeError` rendering
`msg: line L column C (char N)` for the messages exercised by the theorems
below (lone-surrogate `\uXXXX` escapes, unrepresentable in `Char`, map to
U+FFFD; the `repr` fragment CPython appends to two rare string-error messages
is omitted — no theorem below depends on those strings).

The network is an oracle: a map from remote tool name to the transport-level
outcome (`HttpResult`) of the single POST the fetcher makes for it.  The
aggregator embedding also returns the list of tool names it fetched, which is
exactly the sequence of Record Fetcher invocations the Python loop performs —
this makes "does not invoke the fetcher for later categories" provable.
-/

/-- The opening brace character, kept out of string/char literals. -/
def lbrace : Char := Char.ofNat 123

/-- The closing brace character, kept out of string/char literals. -/
def rbrace : Char := Char.ofNat 125

/-- Embedding of the Python values handled by this code: `None`, booleans,
numbers (kept as their JSON lexeme), strings, lists and dicts (association
lists in insertion order, unique keys). -/
inductive PyJson where
  | null
  | bool (b : Bool)
  | num (lexeme : String)
  | str (s : String)
  | arr (xs : List PyJson)
  | obj (kvs : List (String × PyJson))
  deriving Repr

namespace PyJson

mutual

/-- Structural equality on `PyJson`; nested list positions force a mutual
definition (no deriving handler applies). -/
def beq : PyJson → PyJson → Bool
  | .null, .null => true
  | .bool a, .bool b => a == b
  | .num a, .num b => a == b
  | .str a, .str b => a == b
  | .arr a, .arr b => beqList a b
  | .obj a, .obj b => beqKVs a b
  | _, _ => false

/-- Pointwise `beq` on lists of values. -/
def beqList : List PyJson → List PyJson → Bool
  | [], [] => true
  | x :: xs, y :: ys => beq x y && beqList xs ys
  | _, _ => false

/-- Pointwise `beq` on key-value lists. -/
def beqKVs : List (String × PyJson) → List (String × PyJson) → Bool
  | [], [] => true
  | (k, v) :: xs, (l, w) :: ys => k == l && beq v w && beqKVs xs ys
  | _, _ => false

end

mutual

/-- Equality test: `beq` answers `true` exactly on equal values. -/
theorem beq_iff : ∀ a b : PyJson, beq a b = true ↔ a = b
  | .null, .null => by simp [beq]
  | .bool _, .bool _ => by simp [beq]
  | .num _, .num _ => by simp [beq]
  | .str _, .str _ => by simp [beq]
  | .arr x, .arr y => by simp [beq, beqList_iff x y]
  | .obj x, .obj y => by simp [beq, beqKVs_iff x y]
  | .null, .bool _ | .null, .num _ | .null, .str _ | .null, .arr _ | .null, .obj _
  | .bool _, .null | .bool _, .num _ | .bool _, .str _ | .bool _, .arr _ | .bool _, .obj _
  | .num _, .null | .num _, .bool _ | .num _, .str _ | .num _, .arr _ | .num _, .obj _
  | .str _, .null | .str _, .bool _ | .str _, .num _ | .str _, .arr _ | .str _, .obj _
  | .arr _, .null | .arr _, .bool _ | .arr _, .num _ | .arr _, .str _ | .arr _, .obj _
  | .obj _, .null | .obj _, .bool _ | .obj _, .num _ | .obj _, .str _ | .obj _, .arr _ => by
    simp [beq]

/-- List version of `beq_iff`. -/
theorem beqList_iff : ∀ xs ys : List PyJson, beqList xs ys = true ↔ xs = ys
  | [], [] => by simp [beqList]
  | x :: xs, y :: ys => by simp [beqList, beq_iff x y, beqList_iff xs ys]
  | [], _ :: _ => by simp [beqList]
  | _ :: _, [] => by simp [beqList]

/-- Key-value version of `beq_iff`. -/
theorem beqKVs_iff : ∀ xs ys : List (String × PyJson), beqKVs xs ys = true ↔ xs = ys
  | [], [] => by simp [beqKVs]
  | (k, v) :: xs, (l, w) :: ys => by
    simp [beqKVs, beq_iff v w, beqKVs_iff xs ys, and_assoc]
  | [], _ :: _ => by simp [beqKVs]
  | _ :: _, [] => by simp [beqKVs]

end

instance : DecidableEq PyJson := fun a b =>
  decidable_of_iff (beq a b = true) (beq_iff a b)

end PyJson

/-- Lookup in an embedded Python dict (`d.get(k)` / `d[k]` on a present key).
Keys are unique by construction, so first match is the value. -/
def dictGet (kvs : List (String × PyJson)) (k : String) : Option PyJson :=
  (kvs.find? (fun kv => kv.1 == k)).map (·.2)

/-- Python dict assignment `d[k] = v`: replaces in place when the key exists
(keeping its insertion position), appends otherwise. -/
def pyDictSet (kvs : List (String × PyJson)) (k : String) (v : PyJson) :
    List (String × PyJson) :=
  if kvs.any (fun kv => kv.1 == k) then
    kvs.map (fun kv => if kv.1 == k then (k, v) else kv)
  else kvs ++ [(k, v)]

/-- Whether the mantissa of a JSON number lexeme denotes zero (every digit
before the exponent marker is `0`); Python `bool` on the parsed number. -/
def numIsZero (lexeme : String) : Bool :=
  (lexeme.data.takeWhile (fun c => !(c = 'e' || c = 'E'))).all
    (fun c => c = '0' || c = '-' || c = '.')

/-- Python truthiness of an embedded value (`bool(x)`). -/
def pyTruthy : PyJson → Bool
  | .null => false
  | .bool b => b
  | .num lexeme => !numIsZero lexeme
  | .str s => s ≠ ""
  | .arr xs => !xs.isEmpty
  | .obj kvs => !kvs.isEmpty

/-- Whether `pat` occurs at the head of `l`. -/
def listStartsWith : List Char → List Char → Bool
  | _, [] => true
  | [], _ :: _ => false
  | a :: as, b :: bs => a = b && listStartsWith as bs

/-- Whether `pat` occurs as a contiguous run inside `l` (Python `pat in s`). -/
def listContainsSub : List Char → List Char → Bool
  | [], pat => pat.isEmpty
  | c :: t, pat => listStartsWith (c :: t) pat || listContainsSub t pat

/-- Python substring test `sub in s`. -/
def containsSub (s sub : String) : Bool :=
  listContainsSub s.data sub.data

/-! ## Embedding of `json.loads` (CPython `json` module) -/

/-- A parse failure: CPython `JSONDecodeError` message head and character
index into the document. -/
abbrev JErr := String × Nat

/-- JSON whitespace (the `json` module's `[ \t\n\r]`). -/
def jsonWsChar (c : Char) : Bool :=
  c = ' ' || c = '\t' || c = '\n' || c = '\r'

/-- Skip JSON whitespace, tracking the character index. -/
def jsonSkipWs : List Char → Nat → List Char × Nat
  | [], i => ([], i)
  | c :: l, i => if jsonWsChar c then jsonSkipWs l (i + 1) else (c :: l, i)

/-- Hexadecimal digit value. -/
def hexVal (c : Char) : Option Nat :=
  if '0' ≤ c ∧ c ≤ '9' then some (c.toNat - '0'.toNat)
  else if 'a' ≤ c ∧ c ≤ 'f' then some (c.toNat - 'a'.toNat + 10)
  else if 'A' ≤ c ∧ c ≤ 'F' then some (c.toNat - 'A'.toNat + 10)
  else none

/-- Four hex digits, as in a `\uXXXX` escape. -/
def parseHex4 : List Char → Option (Nat × List Char)
  | c1 :: c2 :: c3 :: c4 :: rest => do
    let a ← hexVal c1
    let b ← hexVal c2
    let c ← hexVal c3
    let d ← hexVal c4
    some (((a * 16 + b) * 16 + c) * 16 + d, rest)
  | _ => none

/-- A code point as a `Char`; code points no `Char` can hold (lone
surrogates) become U+FFFD. -/
def charFromCode (n : Nat) : Char :=
  if h : n.isValidChar then Char.ofNatAux n h else Char.ofNat 0xFFFD

/-- Take a maximal run of decimal digits. -/
def takeDigits : List Char → List Char × List Char
  | [] => ([], [])
  | c :: r =>
    if c.isDigit then
      let (a, b) := takeDigits r
      (c :: a, b)
    else ([], c :: r)

/-- The `json` module's number regex
`(-?(?:0|[1-9]\d*))(\.\d+)?([eE][-+]?\d+)?` matched at the head of `l`;
returns the lexeme, the rest and the index after it. -/
def parseNumber (l : List Char) (i : Nat) : Option (String × List Char × Nat) :=
  let (neg, l1, i1) : List Char × List Char × Nat :=
    match l with
    | '-' :: r => (['-'], r, i + 1)
    | _ => ([], l, i)
  match l1 with
  | c :: r =>
    if c = '0' ∨ ¬ c.isDigit then
      if c = '0' then some (goFrac neg ['0'] r (i1 + 1)) else none
    else
      let (ds, r2) := takeDigits r
      some (goFrac neg (c :: ds) r2 (i1 + 1 + ds.length))
  | [] => none
where
  /-- Optional fraction then optional exponent, each atomic as in the regex. -/
  goFrac (neg intPart : List Char) (l : List Char) (i : Nat) :
      String × List Char × Nat :=
    let (fr, l2, i2) : List Char × List Char × Nat :=
      match l with
      | '.' :: r =>
        match takeDigits r with
        | ([], _) => ([], l, i)
        | (ds, r2) => ('.' :: ds, r2, i + 1 + ds.length)
      | _ => ([], l, i)
    let (ex, l3, i3) : List Char × List Char × Nat :=
      match l2 with
      | c :: r =>
        if c = 'e' ∨ c = 'E' then
          match r with
          | s :: r2 =>
            if s = '+' ∨ s = '-' then
              match takeDigits r2 with
              | ([], _) => ([], l2, i2)
              | (ds, r3) => (c :: s :: ds, r3, i2 + 2 + ds.length)
            else
              match takeDigits r with
              | ([], _) => ([], l2, i2)
              | (ds, r3) => (c :: ds, r3, i2 + 1 + ds.length)
          | [] => ([], l2, i2)
        else ([], l2, i2)
      | [] => ([], l2, i2)
    (String.mk (neg ++ intPart ++ fr ++ ex), l3, i3)

/-- CPython `py_scanstring`: the body of a string literal, entered just after
the opening quote at index `beginIdx`; returns the decoded content, the rest
and the index after the closing quote. -/
def parseStringBody (fuel : Nat) (l : List Char) (i beginIdx : Nat)
    (acc : List Char) : Except JErr (String × List Char × Nat) :=
  match fuel with
  | 0 => .error ("Unterminated string starting at", beginIdx)
  | fuel + 1 =>
    match l with
    | [] => .error ("Unterminated string starting at", beginIdx)
    | c :: r =>
      if c = '"' then .ok (String.mk acc.reverse, r, i + 1)
      else if c = '\\' then
        match r with
        | [] => .error ("Unterminated string starting at", beginIdx)
        | e :: r2 =>
          if e = 'u' then
            match parseHex4 r2 with
            | none => .error ("Invalid \\uXXXX escape", i + 2)
            | some (n, r3) =>
              if 0xD800 ≤ n ∧ n ≤ 0xDBFF then
                match r3 with
                | '\\' :: 'u' :: r4 =>
                  match parseHex4 r4 with
                  | none => .error ("Invalid \\uXXXX escape", i + 8)
                  | some (m, r5) =>
                    if 0xDC00 ≤ m ∧ m ≤ 0xDFFF then
                      parseStringBody fuel r5 (i + 12) beginIdx
                        (charFromCode (0x10000 + (n - 0xD800) * 0x400 + (m - 0xDC00)) :: acc)
                    else
                      parseStringBody fuel r3 (i + 6) beginIdx (charFromCode n :: acc)
                | _ => parseStringBody fuel r3 (i + 6) beginIdx (charFromCode n :: acc)
              else parseStringBody fuel r3 (i + 6) beginIdx (charFromCode n :: acc)
          else
            match escChar e with
            | some d => parseStringBody fuel r2 (i + 2) beginIdx (d :: acc)
            | none => .error ("Invalid \\escape", i + 1)
      else if c.toNat < 0x20 then .error ("Invalid control character at", i)
      else parseStringBody fuel r (i + 1) beginIdx (c :: acc)
where
  /-- The `BACKSLASH` escape table. -/
  escChar (e : Char) : Option Char :=
    if e = '"' then some '"'
    else if e = '\\' then some '\\'
    else if e = '/' then some '/'
    else if e = 'b' then some (Char.ofNat 0x08)
    else if e = 'f' then some (Char.ofNat 0x0C)
    else if e = 'n' then some '\n'
    else if e = 'r' then some '\r'
    else if e = 't' then some '\t'
    else none

mutual

/-- CPython `scan_once`: one JSON value at the head of `l` (no leading
whitespace), index `i`. -/
def parseValue (fuel : Nat) (l : List Char) (i : Nat) :
    Except JErr (PyJson × List Char × Nat) :=
  match fuel with
  | 0 => .error ("Expecting value", i)
  | fuel + 1 =>
    match l with
    | [] => .error ("Expecting value", i)
    | c :: r =>
      if c = '"' then
        match parseStringBody (fuel + 1) r (i + 1) i [] with
        | .ok (s, rest, j) => .ok (.str s, rest, j)
        | .error e => .error e
      else if c = lbrace then parseObjBody fuel r (i + 1)
      else if c = '[' then parseArrBody fuel r (i + 1)
      else if listStartsWith l "null".data then .ok (.null, l.drop 4, i + 4)
      else if listStartsWith l "true".data then .ok (.bool true, l.drop 4, i + 4)
      else if listStartsWith l "false".data then .ok (.bool false, l.drop 5, i + 5)
      else
        match parseNumber l i with
        | some (lex, rest, j) => .ok (.num lex, rest, j)
        | none =>
          if listStartsWith l "NaN".data then .ok (.num "NaN", l.drop 3, i + 3)
          else if listStartsWith l "Infinity".data then
            .ok (.num "Infinity", l.drop 8, i + 8)
          else if listStartsWith l "-Infinity".data then
            .ok (.num "-Infinity", l.drop 9, i + 9)
          else .error ("Expecting value", i)
termination_by structural fuel

/-- CPython `JSONObject`, entered just after the opening brace. -/
def parseObjBody (fuel : Nat) (l : List Char) (i : Nat) :
    Except JErr (PyJson × List Char × Nat) :=
  match fuel with
  | 0 => .error ("Expecting property name enclosed in double quotes", i)
  | fuel + 1 =>
    let (l1, i1) := jsonSkipWs l i
    match l1 with
    | [] => .error ("Expecting property name enclosed in double quotes", i1)
    | c :: r =>
      if c = rbrace then .ok (.obj [], r, i1 + 1)
      else if c = '"' then parseObjLoop fuel r (i1 + 1) i1 []
      else .error ("Expecting property name enclosed in double quotes", i1)
termination_by structural fuel

/-- The member loop of `JSONObject`; `l` starts just after the opening quote
of the next key (at index `keyStart`). -/
def parseObjLoop (fuel : Nat) (l : List Char) (i keyStart : Nat)
    (acc : List (String × PyJson)) : Except JErr (PyJson × List Char × Nat) :=
  match fuel with
  | 0 => .error ("Expecting value", i)
  | fuel + 1 =>
    match parseStringBody (fuel + 1) l i keyStart [] with
    | .error e => .error e
    | .ok (key, l1, i1) =>
      let (l2, i2) := jsonSkipWs l1 i1
      match l2 with
      | [] => .error ("Expecting ':' delimiter", i2)
      | c :: r =>
        if c = ':' then
          let (l3, i3) := jsonSkipWs r (i2 + 1)
          match parseValue fuel l3 i3 with
          | .error e => .error e
          | .ok (v, l4, i4) =>
            let acc2 := pyDictSet acc key v
            let (l5, i5) := jsonSkipWs l4 i4
            match l5 with
            | [] => .error ("Expecting ',' delimiter", i5)
            | c2 :: r2 =>
              if c2 = rbrace then .ok (.obj acc2, r2, i5 + 1)
              else if c2 = ',' then
                let (l6, i6) := jsonSkipWs r2 (i5 + 1)
                match l6 with
                | [] => .error ("Expecting property name enclosed in double quotes", i6)
                | c3 :: r3 =>
                  if c3 = '"' then parseObjLoop fuel r3 (i6 + 1) i6 acc2
                  else .error ("Expecting property name enclosed in double quotes", i6)
              else .error ("Expecting ',' delimiter", i5)
        else .error ("Expecting ':' delimiter", i2)
termination_by structural fuel

/-- CPython `JSONArray`, entered just after the opening bracket. -/
def parseArrBody (fuel : Nat) (l : List Char) (i : Nat) :
    Except JErr (PyJson × List Char × Nat) :=
  match fuel with
  | 0 => .error ("Expecting value", i)
  | fuel + 1 =>
    let (l1, i1) := jsonSkipWs l i
    match l1 with
    | c :: r =>
      if c = ']' then .ok (.arr [], r, i1 + 1)
      else parseArrLoop fuel l1 i1 []
    | [] => parseArrLoop fuel l1 i1 []
termination_by structural fuel

/-- The element loop of `JSONArray`; `l` starts at the next value. -/
def parseArrLoop (fuel : Nat) (l : List Char) (i : Nat) (acc : List PyJson) :
    Except JErr (PyJson × List Char × Nat) :=
  match fuel with
  | 0 => .error ("Expecting value", i)
  | fuel + 1 =>
    match parseValue fuel l i with
    | .error e => .error e
    | .ok (v, l1, i1) =>
      let (l2, i2) := jsonSkipWs l1 i1
      match l2 with
      | [] => .error ("Expecting ',' delimiter", i2)
      | c :: r =>
        if c = ']' then .ok (.arr (acc ++ [v]), r, i2 + 1)
        else if c = ',' then
          let (l3, i3) := jsonSkipWs r (i2 + 1)
          parseArrLoop fuel l3 i3 (acc ++ [v])
        else .error ("Expecting ',' delimiter", i2)
termination_by structural fuel
end

/-- CPython `json.loads`: leading/trailing whitespace allowed, exactly one
top-level value ("Extra data" otherwise). -/
def jsonLoads (s : String) : Except JErr PyJson :=
  let l := s.data
  let (l1, i1) := jsonSkipWs l 0
  match parseValue (2 * l.length + 8) l1 i1 with
  | .error e => .error e
  | .ok (v, rest, i2) =>
    let (rest2, i3) := jsonSkipWs rest i2
    if rest2.isEmpty then .ok v else .error ("Extra data", i3)

/-- One-based line number of a character index, as `JSONDecodeError` computes
it. -/
def lineOf (doc : String) (pos : Nat) : Nat :=
  1 + ((doc.data.take pos).filter (fun c => c = '\n')).length

/-- One-based column number of a character index, as `JSONDecodeError` computes
it. -/
def colOf (doc : String) (pos : Nat) : Nat :=
  ((doc.data.take pos).reverse.takeWhile (fun c => c ≠ '\n')).length + 1

/-- Rendering of `str(e)` for a `JSONDecodeError` raised on `doc`. -/
def renderJsonErr (doc : String) (e : JErr) : String :=
  e.1 ++ ": line " ++ toString (lineOf doc e.2) ++ " column " ++
    toString (colOf doc e.2) ++ " (char " ++ toString e.2 ++ ")"

/-! ## Embedding of the balanced-brace scan

Both extraction sites run CPython
`re.search(r'\x7b(?:[^\x7b\x7d]|(?:\x7b[^\x7b\x7d]*\x7d))*\x7d', text, re.S)`
(the pattern written here with braces escaped).  The pattern has no
backtracking freedom: an item of the repetition can never begin with a closing
brace, a nested group is forced to end at the first brace after its opener,
and the repetition is therefore forced maximal.  `spanTail` is that engine as
a two-depth scan: depth 1 is the top level of the candidate object, depth 2
the inside of a nested group; a second opening brace at depth 2 kills the
match at this start position, exactly as the regex does.  `searchSpan` is
`re.search`'s leftmost-position loop. -/

/-- The regex engine after the opening brace of a candidate match: `d` is 1 at
the top level and 2 inside a nested `[^..]*` group; returns the remainder of
the matched text (up to and including the final closing brace). -/
def spanTail : List Char → Nat → Option (List Char)
  | [], _ => none
  | c :: l, d =>
    if c = lbrace then
      if d = 1 then (spanTail l 2).map (c :: ·) else none
    else if c = rbrace then
      if d = 1 then some [c] else (spanTail l 1).map (c :: ·)
    else (spanTail l d).map (c :: ·)

/-- Attempt the regex at the head of `l`. -/
def matchBrace : List Char → Option (List Char)
  | [] => none
  | c :: l => if c = lbrace then (spanTail l 1).map (c :: ·) else none

/-- Search loop of `re.search`: try each start position from the left, first success wins. -/
def searchSpan : List Char → Option (List Char)
  | [] => none
  | c :: l =>
    match matchBrace (c :: l) with
    | some t => some t
    | none => searchSpan l

/-- Result `m.group(0)` of the search, as the extraction sites use it. -/
def firstJsonSpan (s : String) : Option String :=
  (searchSpan s.data).map String.mk

/-! ## Embedding of the login-url pattern match

`re.search(r'"login_url":\s*"(.*?)"', raw_str)` in `fetch_data_from_mcp`:
no `re.S`, so the lazy capture cannot cross a newline; `\s*` is forced
maximal (whitespace is never a quote).  `\s` is modelled over the ASCII
whitespace characters; the remote strings this path sees are ASCII. -/

/-- ASCII characters matched by Python `\s`. -/
def pyWsRe (c : Char) : Bool :=
  c = ' ' || c = '\t' || c = '\n' || c = '\r' ||
    c = Char.ofNat 0x0B || c = Char.ofNat 0x0C

/-- The lazy group `(.*?)` followed by `"`: content up to the first quote,
failing if a newline or the end of input comes first. -/
def lazyCaptureQuote : List Char → Option (List Char)
  | [] => none
  | c :: r =>
    if c = '"' then some []
    else if c = '\n' then none
    else (lazyCaptureQuote r).map (c :: ·)

/-- Attempt the login-url pattern at the head of `l`. -/
def loginUrlMatchAt (l : List Char) : Option (List Char) :=
  if listStartsWith l "\"login_url\":".data then
    match (l.drop 12).dropWhile pyWsRe with
    | c :: r => if c = '"' then lazyCaptureQuote r else none
    | [] => none
  else none

/-- The leftmost match of the login-url pattern. -/
def searchLoginUrl : List Char → Option (List Char)
  | [] => none
  | c :: t =>
    match loginUrlMatchAt (c :: t) with
    | some cap => some cap
    | none => searchLoginUrl t

/-- Captured `match.group(1)` of the login-url search. -/
def extractLoginUrl (raw : String) : Option String :=
  (searchLoginUrl raw.data).map String.mk

/-! ## Record Fetcher: `fetch_data_from_mcp` (home_loan_affordability.py 128-212)

The transport outcome of the single `requests.post` is the oracle input.
`.ok env` models a 2xx response whose body `response.json()` parsed to `env`;
`.exn` models any other exception out of the transport call or body decode,
which the function's blanket `except Exception` turns into its
`unexpected_error` dict. -/

/-- Transport-level outcome of the one POST a fetch performs. -/
inductive HttpResult where
  | timeout
  | connError
  | httpError (code : Nat) (body : String)
  | ok (envelope : PyJson)
  | exn

/-- Session id `get_mcp_session_id()` (hardcoded in the source). -/
def get_mcp_session_id : String :=
  "mcp-session-594e48ea-fea1-40ef-8c52-7552dd9272af"

/-- An `error`/`message` dict as the fetcher builds them. -/
def mcpErr (kind msg : String) : PyJson :=
  .obj [("error", .str kind), ("message", .str msg)]

/-- The blanket `except Exception` result of the fetcher. -/
def unexpectedFetchErr : PyJson :=
  mcpErr "unexpected_error" "An unexpected error occurred during MCP fetch."

/-- The message used by both login-required returns of the fetcher. -/
def loginRequiredMsg : String :=
  "MCP login required. Please complete login via browser."

/-- Python `k in x` for a string key: dict key test, list membership, or
substring test; `TypeError` on non-containers. -/
def pyIn (k : String) : PyJson → Except Unit Bool
  | .obj kvs => .ok (kvs.any (fun kv => kv.1 == k))
  | .arr xs => .ok (xs.any (fun j => PyJson.beq j (.str k)))
  | .str s => .ok (containsSub s k)
  | _ => .error ()

/-- Python `x[k]` for a string key: dict lookup (`KeyError` when absent),
`TypeError` on anything else. -/
def pySubscript (j : PyJson) (k : String) : Except Unit PyJson :=
  match j with
  | .obj kvs =>
    match dictGet kvs k with
    | some v => .ok v
    | none => .error ()
  | _ => .error ()

/-- Field lookup on a value that is known to be a dict (`None` otherwise). -/
def jsonField (j : PyJson) (k : String) : Option PyJson :=
  match j with
  | .obj kvs => dictGet kvs k
  | _ => none

/-- Lines 159-164: the envelope-shape condition
`'result' in rj and 'content' in rj['result'] and isinstance(..., list) and
len(...) > 0 and 'text' in ...[0]` with its short-circuit evaluation, and the
extraction of `rj['result']['content'][0]['text']`; `.error` is an exception
escaping to the blanket handler, `.ok none` the `else` branch
(`empty_response`). -/
def mcpInner (env : PyJson) : Except Unit (Option PyJson) := do
  let b1 ← pyIn "result" env
  if b1 then
    let r ← pySubscript env "result"
    let b2 ← pyIn "content" r
    if b2 then
      let c ← pySubscript r "content"
      match c with
      | .arr (x :: _) =>
        let b3 ← pyIn "text" x
        if b3 then
          let t ← pySubscript x "text"
          pure (some t)
        else pure none
      | _ => pure none
    else pure none
  else pure none

/-- The tool-name-to-expected-field dict of lines 181-188. -/
def expectedKey (tool : String) : Option String :=
  if tool = "fetch_bank_transactions" then some "bankTransactions"
  else if tool = "fetch_credit_report" then some "creditReport"
  else if tool = "fetch_epf_details" then some "epfDetails"
  else if tool = "fetch_mf_transactions" then some "mfTransactions"
  else if tool = "fetch_net_worth" then some "netWorth"
  else if tool = "fetch_stock_transactions" then some "stockTransactions"
  else none

/-- Line 177: `parsed_data.get("status") == "login_required" and
parsed_data.get("login_url")` — `some u` exactly when the parsed inner JSON
declares a login-required status with a truthy `login_url` value `u`. -/
def loginCondOf (kvs : List (String × PyJson)) : Option PyJson :=
  match dictGet kvs "status" with
  | some (.str s) =>
    if s = "login_required" then
      match dictGet kvs "login_url" with
      | some u => if pyTruthy u then some u else none
      | none => none
    else none
  | _ => none

/-- Fetcher `fetch_data_from_mcp(tool_name, arguments)` given the transport outcome of
its POST.  Every Python failure path is caught inside the function, so the
embedding is total on `PyJson`; exceptions raised after the POST (`TypeError`
from `json.loads` on a non-string text field, `AttributeError` from `.get` on
a non-dict parse result, envelope subscript errors) land in the blanket
`except Exception` and produce `unexpectedFetchErr`. -/
def fetch_data_from_mcp (tool_name : String) (http : HttpResult) : PyJson :=
  match http with
  | .timeout => mcpErr "timeout" "MCP request timed out."
  | .connError => mcpErr "connection_error" "Could not connect to MCP server. Is it running?"
  | .httpError code body =>
    mcpErr "http_error" ("MCP HTTP error: " ++ toString code ++ " - " ++ body)
  | .exn => unexpectedFetchErr
  | .ok env =>
    match mcpInner env with
    | .error _ => unexpectedFetchErr
    | .ok none =>
      mcpErr "empty_response" ("MCP response for " ++ tool_name ++ " was empty or malformed.")
    | .ok (some t) =>
      match t with
      | .str raw_str =>
        match jsonLoads raw_str with
        | .error _ =>
          if containsSub raw_str "login_required" && containsSub raw_str "login_url" then
            .obj [("error", .str "login_required"), ("message", .str loginRequiredMsg),
              ("login_url", .str ((extractLoginUrl raw_str).getD
                ("http://localhost:8080/mockWebPage?sessionId=" ++ get_mcp_session_id)))]
          else mcpErr "invalid_json" "MCP returned invalid JSON."
        | .ok parsed =>
          match parsed with
          | .obj kvs =>
            match loginCondOf kvs with
            | some u =>
              .obj [("error", .str "login_required"), ("message", .str loginRequiredMsg),
                ("login_url", u)]
            | none =>
              match expectedKey tool_name with
              | some ek =>
                match dictGet kvs ek with
                | some v =>
                  if pyTruthy v then v
                  else mcpErr "no_data" ("MCP returned no data for " ++ tool_name ++ ".")
                | none => mcpErr "no_data" ("MCP returned no data for " ++ tool_name ++ ".")
              | none =>
                if kvs.isEmpty then
                  mcpErr "no_data" ("MCP returned no data for " ++ tool_name ++ ".")
                else .obj kvs
          | _ => unexpectedFetchErr
      | _ => unexpectedFetchErr

/-! ## Context Aggregator: `get_full_financial_context_from_mcp_shared`
(home_loan_affordability.py 215-268)

The function body has no `try`/`except`, so two of its expressions can raise:
`errors.append(data["message"])` (`KeyError` when an error-shaped dict has no
`"message"`), `"; ".join(errors)` (`TypeError` when a collected message is
not a string), and `.get("salary", 0)` on a non-dict net-worth slot
(`AttributeError`).  `AggResult.exn` embeds such an exception escaping to the
caller; `.ok` is a normal return.  The second component of the result is the
sequence of remote tool names the loop handed to `fetch_data_from_mcp`, in
order. -/

/-- A Python exception escaping the aggregator. -/
inductive PyExn where
  | keyError
  | attributeError
  | typeError
  deriving DecidableEq, Repr

/-- A normal return or an escaped exception. -/
inductive AggResult where
  | ok (j : PyJson)
  | exn (e : PyExn)
  deriving DecidableEq, Repr

/-- The `tools_to_fetch` dict of lines 232-239, in insertion order. -/
def toolsToFetch : List (String × String) :=
  [("fetch_bank_transactions", "bank_txns"),
   ("fetch_credit_report", "credit_rpt"),
   ("fetch_epf_details", "epf"),
   ("fetch_mf_transactions", "mf_txns"),
   ("fetch_net_worth", "net_worth"),
   ("fetch_stock_transactions", "stocks")]

/-- Line 251: the per-category default slot on a non-login failure. -/
def defaultFor (context_key : String) : PyJson :=
  if context_key = "credit_rpt" ∨ context_key = "net_worth" ∨ context_key = "epf" then
    .obj []
  else .arr []

/-- Line 243: `isinstance(data, dict) and "error" in data`. -/
def isErrDict : PyJson → Bool
  | .obj kvs => kvs.any (fun kv => kv.1 == "error")
  | _ => false

/-- Line 222: the dict returned for a falsy `user_id` (note: no `status`
key). -/
def missingUserIdResult : PyJson :=
  .obj [("error", .str "missing_user_id"),
    ("message", .str "User ID is required to fetch data from MCP."),
    ("details", .str "Please provide a user ID (phone number).")]

/-- Line 249: the immediate return on a login-required outcome. -/
def loginReturnDict (u : PyJson) : PyJson :=
  .obj [("status", .str "error"), ("message", .str loginRequiredMsg),
    ("login_url", u), ("details", .str "Visit the provided URL and try again.")]

/-- A Python value as a string, when it is one. -/
def asPyStr : PyJson → Option String
  | .str s => some s
  | _ => none

/-- Joining `"; ".join(errors)`: `none` models the `TypeError` CPython raises when a
collected message is not a string. -/
def joinErrors (errs : List PyJson) : Option String :=
  (errs.mapM asPyStr).map (String.intercalate "; ")

/-- Lines 255-268: what the aggregator does after the loop, given the final
`fetched_data` and `errors`. -/
def aggFinal (fd : List (String × PyJson)) (errs : List PyJson) : AggResult :=
  if errs.isEmpty then
    match (dictGet fd "net_worth").getD (.obj []) with
    | .obj nw =>
      let salary := (dictGet nw "salary").getD (.num "0")
      .ok (.obj (pyDictSet (pyDictSet fd "salary" salary) "status" (.str "success")))
    | _ => .exn .attributeError
  else
    match joinErrors errs with
    | some s =>
      .ok (.obj [("status", .str "error"),
        ("message", .str ("MCP Data Fetch Errors: " ++ s)),
        ("details", .str "Some financial data could not be fetched. Check MCP logs.")])
    | none => .exn .typeError

/-- Line 245: `data["error"] == "login_required"` on an error-shaped dict. -/
def errIsLogin (d : PyJson) : Bool :=
  match jsonField d "error" with
  | some (.str s) => s == "login_required"
  | _ => false

/-- The `for mcp_tool_name, context_key in tools_to_fetch.items()` loop,
threading `fetched_data` and `errors`; also returns the tools fetched. -/
def aggLoop (http : String → HttpResult) :
    List (String × String) → List (String × PyJson) → List PyJson →
    AggResult × List String
  | [], fd, errs => (aggFinal fd errs, [])
  | (tool, key) :: rest, fd, errs =>
    let data := fetch_data_from_mcp tool (http tool)
    if isErrDict data then
      match jsonField data "message" with
      | none => (.exn .keyError, [tool])
      | some msg =>
        if errIsLogin data then
          (.ok (loginReturnDict ((jsonField data "login_url").getD .null)), [tool])
        else
          let out := aggLoop http rest (pyDictSet fd key (defaultFor key)) (errs ++ [msg])
          (out.1, tool :: out.2)
    else
      let out := aggLoop http rest (pyDictSet fd key data) errs
      (out.1, tool :: out.2)

/-- Aggregator `get_full_financial_context_from_mcp_shared(user_id)` given the transport
oracle for the six per-tool POSTs it may make. -/
def get_full_financial_context_from_mcp_shared (user_id : String)
    (http : String → HttpResult) : AggResult × List String :=
  if user_id = "" then (.ok missingUserIdResult, [])
  else aggLoop http toolsToFetch [] []

/-! ## Tolerant extraction wrappers

`_call_gemini_and_parse_json` (home_loan_affordability.py 90-106) and the
matching scan inside `analyze_financial_data`
(analyse_spending_patterns.py 158-174), as functions of the stripped model
response text `raw`.  In both, `str(e)` of the `ValueError` raised on a
missing span is its construction message, and `str(e)` of a
`JSONDecodeError` is `renderJsonErr` over the span the parse ran on. -/

/-- Lines 88-106 of home_loan_affordability.py: regex scan, parse, and the
three result dicts. -/
def callGeminiExtract (raw : String) : PyJson :=
  match firstJsonSpan raw with
  | none =>
    .obj [("status", .str "error"), ("message", .str "JSON extraction/parsing failed"),
      ("details", .str ("No valid JSON object found in Gemini's response. Raw: " ++ raw)),
      ("gemini_response", .str raw)]
  | some span =>
    match jsonLoads span with
    | .error e =>
      .obj [("status", .str "error"), ("message", .str "Invalid JSON from Gemini"),
        ("details", .str (renderJsonErr span e)), ("gemini_response", .str raw)]
    | .ok parsed => .obj [("status", .str "success"), ("data", parsed)]

/-- Lines 158-174 of analyse_spending_patterns.py: same scan, but the parsed
object is mutated with `result["status"] = "success"` and returned directly.
A span always starts with an opening brace, so a successful parse is an
object; the non-object arm embeds the `TypeError` that the subscript
assignment would raise, landing in the function's `except Exception`
(lines 175-182). -/
def analyzeExtract (raw : String) : PyJson :=
  match firstJsonSpan raw with
  | none =>
    .obj [("status", .str "error"),
      ("message", .str "Gemini returned invalid JSON for analysis."),
      ("details", .str raw)]
  | some span =>
    match jsonLoads span with
    | .error e =>
      .obj [("status", .str "error"), ("message", .str "Invalid JSON from Gemini for analysis"),
        ("details", .str (renderJsonErr span e)), ("gemini_response", .str raw)]
    | .ok parsed =>
      match parsed with
      | .obj kvs => .obj (pyDictSet kvs "status" (.str "success"))
      | _ =>
        .obj [("status", .str "error"),
          ("message", .str "An unexpected error occurred during analysis."),
          ("details", .str "list indices must be integers or slices, not str")]


/-! ## Declarative specification of the brace scan

`SpanItems` is the language of the regex's repetition written as a grammar,
independent of the scanning functions: an item is a non-brace character or a
one-level nested group.  `IsSpan` is the language of the whole pattern.  The
theorems below show that `searchSpan` returns exactly the leftmost member of
this language occurring in the text, and that at a given start position the
member is unique. -/

/-- A character the regex class `[^..]` accepts: neither brace. -/
def nbChar (c : Char) : Bool := !(c = lbrace || c = rbrace)

/-- The language of `(?:[^..]|(?:..[^..]*..))*`: sequences of non-brace
characters and one-level brace groups. -/
inductive SpanItems : List Char → Prop where
  | nil : SpanItems []
  | chr : ∀ (c : Char) (l : List Char), nbChar c = true → SpanItems l →
      SpanItems (c :: l)
  | blk : ∀ (inner l : List Char), (∀ c ∈ inner, nbChar c = true) → SpanItems l →
      SpanItems (lbrace :: (inner ++ rbrace :: l))

/-- The language of the whole pattern: a brace-delimited item sequence. -/
def IsSpan (t : List Char) : Prop :=
  ∃ u, SpanItems u ∧ t = lbrace :: (u ++ [rbrace])

theorem lbrace_ne_rbrace : ¬ (lbrace = rbrace) := by decide

theorem rbrace_ne_lbrace : ¬ (rbrace = lbrace) := by decide

theorem nbChar_iff {c : Char} : nbChar c = true ↔ ¬ (c = lbrace) ∧ ¬ (c = rbrace) := by
  simp [nbChar]

theorem spanTail_lbrace_one (l : List Char) :
    spanTail (lbrace :: l) 1 = (spanTail l 2).map (fun t => lbrace :: t) := by
  simp [spanTail]

theorem spanTail_lbrace_two (l : List Char) : spanTail (lbrace :: l) 2 = none := by
  simp [spanTail]

theorem spanTail_rbrace_one (l : List Char) : spanTail (rbrace :: l) 1 = some [rbrace] := by
  simp [spanTail, rbrace_ne_lbrace]

theorem spanTail_rbrace_two (l : List Char) :
    spanTail (rbrace :: l) 2 = (spanTail l 1).map (fun t => rbrace :: t) := by
  simp [spanTail, rbrace_ne_lbrace]

theorem spanTail_nb {c : Char} (hc : nbChar c = true) (l : List Char) (d : Nat) :
    spanTail (c :: l) d = (spanTail l d).map (fun t => c :: t) := by
  obtain ⟨h1, h2⟩ := nbChar_iff.mp hc
  simp [spanTail, h1, h2]

theorem spanTail_sound :
    ∀ l : List Char,
      (∀ t, spanTail l 1 = some t →
        ∃ u rest, SpanItems u ∧ t = u ++ [rbrace] ∧ l = u ++ rbrace :: rest) ∧
      (∀ t, spanTail l 2 = some t →
        ∃ a u rest, (∀ c ∈ a, nbChar c = true) ∧ SpanItems u ∧
          t = a ++ rbrace :: (u ++ [rbrace]) ∧
          l = a ++ rbrace :: (u ++ rbrace :: rest)) := by
  intro l
  induction l with
  | nil => exact ⟨fun t h => by simp [spanTail] at h, fun t h => by simp [spanTail] at h⟩
  | cons c l ih =>
    obtain ⟨ih1, ih2⟩ := ih
    constructor
    · intro t h
      by_cases hc : c = lbrace
      · subst hc
        rw [spanTail_lbrace_one, Option.map_eq_some'] at h
        obtain ⟨t2, h2, rfl⟩ := h
        obtain ⟨a, u, rest, ha, hu, ht2, hl⟩ := ih2 t2 h2
        refine ⟨lbrace :: (a ++ rbrace :: u), rest, SpanItems.blk a u ha hu, ?_, ?_⟩
        · subst ht2; simp
        · subst hl; simp
      · by_cases hc2 : c = rbrace
        · subst hc2
          rw [spanTail_rbrace_one] at h
          obtain rfl : [rbrace] = t := Option.some_injective _ h
          exact ⟨[], l, SpanItems.nil, by simp, by simp⟩
        · have hnb : nbChar c = true := nbChar_iff.mpr ⟨hc, hc2⟩
          rw [spanTail_nb hnb, Option.map_eq_some'] at h
          obtain ⟨t2, h2, rfl⟩ := h
          obtain ⟨u, rest, hu, ht2, hl⟩ := ih1 t2 h2
          refine ⟨c :: u, rest, SpanItems.chr c u hnb hu, ?_, ?_⟩
          · subst ht2; simp
          · subst hl; simp
    · intro t h
      by_cases hc : c = lbrace
      · subst hc
        rw [spanTail_lbrace_two] at h
        exact absurd h (by simp)
      · by_cases hc2 : c = rbrace
        · subst hc2
          rw [spanTail_rbrace_two, Option.map_eq_some'] at h
          obtain ⟨t2, h2, rfl⟩ := h
          obtain ⟨u, rest, hu, ht2, hl⟩ := ih1 t2 h2
          exact ⟨[], u, rest, by simp, hu, by simp [ht2], by simp [hl]⟩
        · have hnb : nbChar c = true := nbChar_iff.mpr ⟨hc, hc2⟩
          rw [spanTail_nb hnb, Option.map_eq_some'] at h
          obtain ⟨t2, h2, rfl⟩ := h
          obtain ⟨a, u, rest, ha, hu, ht2, hl⟩ := ih2 t2 h2
          refine ⟨c :: a, u, rest, ?_, hu, ?_, ?_⟩
          · intro x hx
            rcases List.mem_cons.mp hx with rfl | hx2
            · exact hnb
            · exact ha x hx2
          · subst ht2; simp
          · subst hl; simp

theorem spanTail_nb_run (a : List Char) (ha : ∀ c ∈ a, nbChar c = true) :
    ∀ m : List Char, spanTail (a ++ rbrace :: m) 2 =
      (spanTail m 1).map (fun t2 => a ++ rbrace :: t2) := by
  induction a with
  | nil =>
    intro m
    rw [List.nil_append, spanTail_rbrace_two]
    rfl
  | cons c a ih =>
    intro m
    have hnb : nbChar c = true := ha c (List.mem_cons_self c a)
    rw [List.cons_append, spanTail_nb hnb,
      ih (fun x hx => ha x (List.mem_cons_of_mem c hx)) m]
    cases spanTail m 1 <;> rfl

theorem spanTail_complete :
    ∀ u, SpanItems u → ∀ rest, spanTail (u ++ rbrace :: rest) 1 = some (u ++ [rbrace]) := by
  intro u hu
  induction hu with
  | nil =>
    intro rest
    rw [List.nil_append, spanTail_rbrace_one]
    rfl
  | chr c l hnb hs ih =>
    intro rest
    rw [List.cons_append, spanTail_nb hnb, ih rest]
    rfl
  | blk inner l ha hs ih =>
    intro rest
    have hassoc : (lbrace :: (inner ++ rbrace :: l)) ++ rbrace :: rest =
        lbrace :: (inner ++ rbrace :: (l ++ rbrace :: rest)) := by simp
    rw [hassoc, spanTail_lbrace_one, spanTail_nb_run inner ha (l ++ rbrace :: rest), ih rest]
    simp

theorem matchBrace_some {l t : List Char} (h : matchBrace l = some t) :
    IsSpan t ∧ ∃ post, l = t ++ post := by
  match l with
  | [] => simp [matchBrace] at h
  | c :: l2 =>
    by_cases hc : c = lbrace
    · subst hc
      rw [show matchBrace (lbrace :: l2) = (spanTail l2 1).map (fun t => lbrace :: t) by
          simp [matchBrace], Option.map_eq_some'] at h
      obtain ⟨t2, h2, rfl⟩ := h
      obtain ⟨u, rest, hu, ht2, hl⟩ := (spanTail_sound l2).1 t2 h2
      exact ⟨⟨u, hu, by rw [ht2]⟩, ⟨rest, by rw [hl, ht2]; simp⟩⟩
    · simp [matchBrace, hc] at h

theorem matchBrace_of_span {t : List Char} (h : IsSpan t) (post : List Char) :
    matchBrace (t ++ post) = some t := by
  obtain ⟨u, hu, rfl⟩ := h
  have hassoc : (lbrace :: (u ++ [rbrace])) ++ post = lbrace :: (u ++ rbrace :: post) := by
    simp
  rw [hassoc, show matchBrace (lbrace :: (u ++ rbrace :: post)) =
      (spanTail (u ++ rbrace :: post) 1).map (fun t => lbrace :: t) by simp [matchBrace],
    spanTail_complete u hu post]
  rfl

theorem nb_run_eq :
    ∀ (a b x y : List Char), (∀ c ∈ a, nbChar c = true) → (∀ c ∈ b, nbChar c = true) →
      a ++ rbrace :: x = b ++ rbrace :: y → a = b ∧ x = y := by
  intro a
  induction a with
  | nil =>
    intro b x y _ hb h
    match b with
    | [] => simpa using h
    | c :: b2 =>
      rw [List.nil_append, List.cons_append, List.cons_eq_cons] at h
      have hnb := hb c (List.mem_cons_self c b2)
      rw [← h.1] at hnb
      exact absurd hnb (by simp [nbChar])
  | cons c a ih =>
    intro b x y ha hb h
    match b with
    | [] =>
      rw [List.cons_append, List.nil_append, List.cons_eq_cons] at h
      have hnb := ha c (List.mem_cons_self c a)
      rw [h.1] at hnb
      exact absurd hnb (by simp [nbChar])
    | d :: b2 =>
      rw [List.cons_append, List.cons_append, List.cons_eq_cons] at h
      obtain ⟨rfl, h2⟩ := h
      obtain ⟨rfl, rfl⟩ := ih b2 x y (fun z hz => ha z (List.mem_cons_of_mem c hz))
        (fun z hz => hb z (List.mem_cons_of_mem c hz)) h2
      exact ⟨rfl, rfl⟩

theorem spanItems_cons_inv {c : Char} {l : List Char} (h : SpanItems (c :: l)) :
    (nbChar c = true ∧ SpanItems l) ∨
    (c = lbrace ∧ ∃ inner rest, (∀ x ∈ inner, nbChar x = true) ∧ SpanItems rest ∧
      l = inner ++ rbrace :: rest) := by
  cases h with
  | chr c2 l2 hnb hs => exact Or.inl ⟨hnb, hs⟩
  | blk inner rest ha hs => exact Or.inr ⟨rfl, inner, rest, ha, hs, rfl⟩

theorem spanItems_no_extend :
    ∀ u, SpanItems u → ∀ w, ¬ SpanItems (u ++ rbrace :: w) := by
  intro u hu
  induction hu with
  | nil =>
    intro w hcontra
    rw [List.nil_append] at hcontra
    rcases spanItems_cons_inv hcontra with ⟨hnb, _⟩ | ⟨heq, _⟩
    · exact absurd hnb (by simp [nbChar])
    · exact rbrace_ne_lbrace heq
  | chr c l hnb hs ih =>
    intro w hcontra
    rw [List.cons_append] at hcontra
    rcases spanItems_cons_inv hcontra with ⟨_, hs2⟩ | ⟨heq, _⟩
    · exact ih w hs2
    · rw [heq] at hnb
      exact absurd hnb (by simp [nbChar])
  | blk inner l ha hs ih =>
    intro w hcontra
    have hassoc : (lbrace :: (inner ++ rbrace :: l)) ++ rbrace :: w =
        lbrace :: (inner ++ rbrace :: (l ++ rbrace :: w)) := by simp
    rw [hassoc] at hcontra
    rcases spanItems_cons_inv hcontra with ⟨hnb, _⟩ | ⟨_, inner2, rest2, ha2, hs2, heq⟩
    · exact absurd hnb (by simp [nbChar])
    · obtain ⟨rfl, rfl⟩ := nb_run_eq inner inner2 (l ++ rbrace :: w) rest2 ha ha2 heq
      exact ih w hs2

theorem append_common {α : Type} :
    ∀ (t t2 p p2 : List α), t ++ p = t2 ++ p2 → t.length ≤ t2.length →
      ∃ w, t2 = t ++ w := by
  intro t
  induction t with
  | nil => intro t2 _ _ _ _; exact ⟨t2, rfl⟩
  | cons c t ih =>
    intro t2 p p2 h hlen
    match t2 with
    | [] => simp at hlen
    | d :: t3 =>
      rw [List.cons_append, List.cons_append, List.cons_eq_cons] at h
      obtain ⟨rfl, h2⟩ := h
      obtain ⟨w, rfl⟩ := ih t3 p p2 h2 (by simpa using hlen)
      exact ⟨w, rfl⟩

theorem span_prefix_unique_aux {t t2 p p2 : List Char} (h1 : IsSpan t) (h2 : IsSpan t2)
    (heq : t ++ p = t2 ++ p2) (hlen : t.length ≤ t2.length) : t = t2 := by
  obtain ⟨w, rfl⟩ := append_common t t2 p p2 heq hlen
  obtain ⟨u, hu, rfl⟩ := h1
  obtain ⟨u2, hu2, hform⟩ := h2
  match w with
  | [] => simp
  | d :: w2 =>
    exfalso
    have hform2 : lbrace :: (u ++ [rbrace] ++ (d :: w2)) =
        lbrace :: (u2 ++ [rbrace]) := by simpa using hform
    rw [List.cons_eq_cons] at hform2
    have hlen2 : (u ++ [rbrace]).length ≤ u2.length := by
      have := congrArg List.length hform2.2
      simp at this
      simp
      omega
    obtain ⟨v, hv⟩ := append_common (u ++ [rbrace]) u2 (d :: w2) [rbrace]
      hform2.2 hlen2
    rw [hv] at hu2
    have : u ++ [rbrace] ++ v = u ++ rbrace :: v := by simp
    rw [this] at hu2
    exact spanItems_no_extend u hu v hu2

theorem span_prefix_unique {t t2 p p2 : List Char} (h1 : IsSpan t) (h2 : IsSpan t2)
    (heq : t ++ p = t2 ++ p2) : t = t2 := by
  rcases le_total t.length t2.length with hle | hle
  · exact span_prefix_unique_aux h1 h2 heq hle
  · exact (span_prefix_unique_aux h2 h1 heq.symm hle).symm

theorem searchSpan_some :
    ∀ l t, searchSpan l = some t →
      ∃ pre post, l = pre ++ t ++ post ∧ IsSpan t ∧
        ∀ pre2 t2 post2, l = pre2 ++ t2 ++ post2 → IsSpan t2 →
          pre.length ≤ pre2.length ∧ (pre2.length = pre.length → t2 = t) := by
  intro l
  induction l with
  | nil => intro t h; simp [searchSpan] at h
  | cons c l ih =>
    intro t h
    rcases hm : matchBrace (c :: l) with _ | t0
    · rw [searchSpan, hm] at h
      obtain ⟨pre, post, hl, hspan, hmin⟩ := ih t h
      refine ⟨c :: pre, post, by rw [hl]; simp, hspan, ?_⟩
      intro pre2 t2 post2 hsplit hspan2
      match pre2 with
      | [] =>
        exfalso
        rw [List.nil_append] at hsplit
        rw [hsplit, matchBrace_of_span hspan2 post2] at hm
        exact Option.noConfusion hm
      | d :: pre3 =>
        have hsplit2 : c :: l = d :: (pre3 ++ t2 ++ post2) := by simpa using hsplit
        rw [List.cons_eq_cons] at hsplit2
        obtain ⟨hmin1, hmin2⟩ := hmin pre3 t2 post2 hsplit2.2 hspan2
        constructor
        · simpa using hmin1
        · intro hleneq
          exact hmin2 (by simpa using hleneq)
    · rw [searchSpan, hm] at h
      obtain rfl : t0 = t := Option.some_injective _ h
      obtain ⟨hspan, post, hpost⟩ := matchBrace_some hm
      refine ⟨[], post, by simpa using hpost, hspan, ?_⟩
      intro pre2 t2 post2 hsplit hspan2
      refine ⟨Nat.zero_le _, ?_⟩
      intro hlen0
      have hpre2 : pre2 = [] := List.eq_nil_of_length_eq_zero (by simpa using hlen0)
      subst hpre2
      rw [List.nil_append] at hsplit
      exact span_prefix_unique hspan2 hspan (by rw [← hsplit, ← hpost])

theorem searchSpan_none :
    ∀ l, searchSpan l = none →
      ∀ pre t post, l = pre ++ t ++ post → ¬ IsSpan t := by
  intro l
  induction l with
  | nil =>
    intro _ pre t post hsplit hspan
    obtain ⟨u, hu, rfl⟩ := hspan
    have := congrArg List.length hsplit
    simp at this
    omega
  | cons c l ih =>
    intro h pre t post hsplit hspan
    rcases hm : matchBrace (c :: l) with _ | t0
    · rw [searchSpan, hm] at h
      match pre with
      | [] =>
        rw [List.nil_append] at hsplit
        rw [hsplit, matchBrace_of_span hspan post] at hm
        exact Option.noConfusion hm
      | d :: pre3 =>
        have hsplit2 : c :: l = d :: (pre3 ++ t ++ post) := by simpa using hsplit
        rw [List.cons_eq_cons] at hsplit2
        exact ih h pre3 t post hsplit2.2 hspan
    · rw [searchSpan, hm] at h
      exact Option.noConfusion h

/-! ## Aggregator loop lemmas

`benignOutcome` describes the fetch outcomes on which one loop iteration
neither raises nor short-circuits: either not classified as a failure at all
(line 243), or a failure dict that carries a `"message"` (so line 244 cannot
raise `KeyError`) and is not login-shaped (so line 249 does not return).
Every failure dict `fetch_data_from_mcp` itself builds is of this second form
except the login one; a payload that merely contains an `"error"` key may
not be. -/

/-- An outcome the loop folds over without returning or raising. -/
def benignOutcome (d : PyJson) : Bool :=
  !isErrDict d || ((jsonField d "message").isSome && !errIsLogin d)

/-- An outcome that triggers the immediate login-required return. -/
def loginShaped (d : PyJson) : Bool :=
  isErrDict d && (jsonField d "message").isSome && errIsLogin d

/-- What one iteration stores in `fetched_data` for outcome `d`. -/
def slotVal (d : PyJson) (key : String) : PyJson :=
  if isErrDict d then defaultFor key else d

/-- The message one iteration appends to `errors`, if any. -/
def msgOf (d : PyJson) : Option PyJson :=
  if isErrDict d then jsonField d "message" else none

theorem aggLoop_benign (http : String → HttpResult) :
    ∀ (L : List (String × String)) (fd : List (String × PyJson)) (errs : List PyJson),
      (∀ p ∈ L, benignOutcome (fetch_data_from_mcp p.1 (http p.1)) = true) →
      aggLoop http L fd errs =
        (aggFinal
          (L.foldl
            (fun acc p => pyDictSet acc p.2 (slotVal (fetch_data_from_mcp p.1 (http p.1)) p.2))
            fd)
          (errs ++ L.filterMap (fun p => msgOf (fetch_data_from_mcp p.1 (http p.1)))),
         L.map (fun p => p.1)) := by
  intro L
  induction L with
  | nil => intro fd errs _; simp [aggLoop]
  | cons p rest ih =>
    intro fd errs hb
    obtain ⟨tool, key⟩ := p
    have hbhead := hb (tool, key) (List.mem_cons_self _ _)
    have hbrest : ∀ q ∈ rest, benignOutcome (fetch_data_from_mcp q.1 (http q.1)) = true :=
      fun q hq => hb q (List.mem_cons_of_mem _ hq)
    by_cases hed : isErrDict (fetch_data_from_mcp tool (http tool)) = true
    · rw [benignOutcome, hed] at hbhead
      simp only [Bool.not_true, Bool.false_or, Bool.and_eq_true, Bool.not_eq_true'] at hbhead
      obtain ⟨hm, hnl⟩ := hbhead
      obtain ⟨m, hmeq⟩ := Option.isSome_iff_exists.mp hm
      simp only [aggLoop, hed, if_true, hmeq, hnl, if_false, Bool.false_eq_true,
        List.append_eq]
      rw [ih _ _ hbrest]
      simp only [List.foldl_cons, List.filterMap_cons, List.map_cons,
        msgOf, slotVal, hed, if_true, hmeq, List.append_assoc, List.singleton_append]
    · rw [Bool.not_eq_true] at hed
      simp only [aggLoop, hed, Bool.false_eq_true, if_false, List.append_eq]
      rw [ih _ _ hbrest]
      simp only [List.foldl_cons, List.filterMap_cons, List.map_cons,
        msgOf, slotVal, hed, Bool.false_eq_true, if_false]

theorem aggLoop_login (http : String → HttpResult) :
    ∀ (L1 : List (String × String)) (tool key : String) (L2 : List (String × String))
      (fd : List (String × PyJson)) (errs : List PyJson),
      (∀ p ∈ L1, benignOutcome (fetch_data_from_mcp p.1 (http p.1)) = true) →
      loginShaped (fetch_data_from_mcp tool (http tool)) = true →
      aggLoop http (L1 ++ (tool, key) :: L2) fd errs =
        (.ok (loginReturnDict
          ((jsonField (fetch_data_from_mcp tool (http tool)) "login_url").getD .null)),
         L1.map (fun p => p.1) ++ [tool]) := by
  intro L1
  induction L1 with
  | nil =>
    intro tool key L2 fd errs _ hl
    rw [loginShaped] at hl
    simp only [Bool.and_eq_true] at hl
    obtain ⟨⟨hed, hm⟩, hlog⟩ := hl
    obtain ⟨m, hmeq⟩ := Option.isSome_iff_exists.mp hm
    simp only [List.nil_append, aggLoop, hed, if_true, hmeq, hlog, List.map_nil]
  | cons p rest ih =>
    intro tool key L2 fd errs hb hl
    obtain ⟨ptool, pkey⟩ := p
    have hbhead := hb (ptool, pkey) (List.mem_cons_self _ _)
    have hbrest : ∀ q ∈ rest, benignOutcome (fetch_data_from_mcp q.1 (http q.1)) = true :=
      fun q hq => hb q (List.mem_cons_of_mem _ hq)
    by_cases hed : isErrDict (fetch_data_from_mcp ptool (http ptool)) = true
    · rw [benignOutcome, hed] at hbhead
      simp only [Bool.not_true, Bool.false_or, Bool.and_eq_true, Bool.not_eq_true'] at hbhead
      obtain ⟨hm, hnl⟩ := hbhead
      obtain ⟨m, hmeq⟩ := Option.isSome_iff_exists.mp hm
      simp only [List.cons_append, aggLoop, hed, if_true, hmeq, hnl, Bool.false_eq_true,
        if_false, List.append_eq]
      rw [ih tool key L2 _ _ hbrest hl]
      simp only [List.map_cons, List.cons_append]
    · rw [Bool.not_eq_true] at hed
      simp only [List.cons_append, aggLoop, hed, Bool.false_eq_true, if_false,
        List.append_eq]
      rw [ih tool key L2 _ _ hbrest hl]
      simp only [List.map_cons, List.cons_append]

theorem mapM_asPyStr_map (msgs : List String) :
    (msgs.map PyJson.str).mapM asPyStr = some msgs := by
  induction msgs with
  | nil => rfl
  | cons m rest ih =>
    rw [List.map_cons, List.mapM_cons, ih]
    rfl

theorem joinErrors_map_str (msgs : List String) :
    joinErrors (msgs.map PyJson.str) = some (String.intercalate "; " msgs) := by
  rw [joinErrors, mapM_asPyStr_map]
  rfl

/-! ## Concrete transport fixtures used by the witnesses

`mkEnvelope inner` is the well-formed remote envelope
`(result = (content = [(text = inner)]))` whose inner text is `inner`;
`baselineOracle` answers every tool with a small non-empty payload (the
net-worth one being the spec's worked example). -/

/-- A well-formed envelope body around the given inner text. -/
def envelopeJson (inner : String) : PyJson :=
  .obj [("result", .obj [("content", .arr [.obj [("text", .str inner)]])])]

/-- A 2xx transport outcome carrying that envelope. -/
def mkEnvelope (inner : String) : HttpResult := .ok (envelopeJson inner)

/-- Inner text for a bank-transactions payload. -/
def innerBank : String := "\x7b\"bankTransactions\": [\x7b\"amt\": 5\x7d]\x7d"

/-- Inner text for a credit-report payload. -/
def innerCredit : String := "\x7b\"creditReport\": \x7b\"score\": 700\x7d\x7d"

/-- Inner text for an EPF payload. -/
def innerEpf : String := "\x7b\"epfDetails\": \x7b\"bal\": 1\x7d\x7d"

/-- Inner text for a mutual-fund payload. -/
def innerMf : String := "\x7b\"mfTransactions\": [1]\x7d"

/-- Inner text for the net-worth payload of the spec's worked example. -/
def innerNetWorth : String := "\x7b\"netWorth\": \x7b\"salary\": 150000, \"assets\": 500000\x7d\x7d"

/-- Inner text for a stock-transactions payload. -/
def innerStocks : String := "\x7b\"stockTransactions\": [2]\x7d"

/-- A transport oracle on which all six category fetches succeed. -/
def baselineOracle : String → HttpResult := fun tool =>
  if tool = "fetch_bank_transactions" then mkEnvelope innerBank
  else if tool = "fetch_credit_report" then mkEnvelope innerCredit
  else if tool = "fetch_epf_details" then mkEnvelope innerEpf
  else if tool = "fetch_mf_transactions" then mkEnvelope innerMf
  else if tool = "fetch_net_worth" then mkEnvelope innerNetWorth
  else mkEnvelope innerStocks

/-- A well-formed login-required inner text. -/
def loginInner : String :=
  "\x7b\"status\": \"login_required\", \"login_url\": \"http://login.example\"\x7d"

/-- Baseline except the EPF category (third in order) demands login. -/
def c1Oracle : String → HttpResult := fun tool =>
  if tool = "fetch_epf_details" then mkEnvelope loginInner else baselineOracle tool

/-! ## The claims -/

/-- C1: for every user id and fetch-outcome sequence, the first
`LoginRequired` outcome — at any position `L1.length` in the fixed category
order (`toolsToFetch = L1 ++ (tool, key) :: L2`), with all earlier outcomes
benign — makes the aggregator return immediately the login dict
(`loginReturnDict`: status `error`, that outcome's `login_url`, the redirect
message), having invoked the fetcher exactly for `L1`'s tools and `tool`,
none after. -/
theorem C1_login_short_circuits (user : String) (http : String → HttpResult)
    (L1 L2 : List (String × String)) (tool key : String)
    (hsplit : toolsToFetch = L1 ++ (tool, key) :: L2)
    (huser : user ≠ "")
    (hbenign : ∀ p ∈ L1, benignOutcome (fetch_data_from_mcp p.1 (http p.1)) = true)
    (hlogin : loginShaped (fetch_data_from_mcp tool (http tool)) = true) :
    get_full_financial_context_from_mcp_shared user http =
      (.ok (loginReturnDict
        ((jsonField (fetch_data_from_mcp tool (http tool)) "login_url").getD .null)),
       L1.map (fun p => p.1) ++ [tool]) := by
  rw [get_full_financial_context_from_mcp_shared, if_neg huser, hsplit]
  exact aggLoop_login http L1 tool key L2 [] [] hbenign hlogin

/-- Witness for C1: login required at the third category; the first two are
fetched, the last three are not, and the third category's URL is surfaced. -/
theorem C1_login_short_circuits_witness :
    get_full_financial_context_from_mcp_shared "999" c1Oracle =
      (.ok (loginReturnDict
        ((jsonField (fetch_data_from_mcp "fetch_epf_details" (c1Oracle "fetch_epf_details"))
          "login_url").getD .null)),
       ([("fetch_bank_transactions", "bank_txns"),
         ("fetch_credit_report", "credit_rpt")].map (fun p => p.1)) ++
        ["fetch_epf_details"]) :=
  C1_login_short_circuits "999" c1Oracle
    [("fetch_bank_transactions", "bank_txns"), ("fetch_credit_report", "credit_rpt")]
    [("fetch_mf_transactions", "mf_txns"), ("fetch_net_worth", "net_worth"),
     ("fetch_stock_transactions", "stocks")]
    "fetch_epf_details" "epf" rfl (by decide) (by decide) (by decide)

/-- Baseline except the mutual-fund category times out. -/
def c2Oracle : String → HttpResult := fun tool =>
  if tool = "fetch_mf_transactions" then .timeout else baselineOracle tool

/-- C2: when every outcome is benign (no login, failure dicts carry their
messages, here as the strings `msgs` in category order) and at least one
category failed, the aggregator returns exactly the three-field error dict —
status `error`, all failure messages joined with `"; "`, the fixed details
string — and no category payload at all: the successfully fetched payloads
are discarded. -/
theorem C2_error_discards_payloads (user : String) (http : String → HttpResult)
    (msgs : List String)
    (huser : user ≠ "")
    (hbenign : ∀ p ∈ toolsToFetch, benignOutcome (fetch_data_from_mcp p.1 (http p.1)) = true)
    (hmsgs : toolsToFetch.filterMap (fun p => msgOf (fetch_data_from_mcp p.1 (http p.1))) =
      msgs.map PyJson.str)
    (hne : msgs ≠ []) :
    get_full_financial_context_from_mcp_shared user http =
      (.ok (.obj [("status", .str "error"),
        ("message", .str ("MCP Data Fetch Errors: " ++ String.intercalate "; " msgs)),
        ("details", .str "Some financial data could not be fetched. Check MCP logs.")]),
       toolsToFetch.map (fun p => p.1)) := by
  rw [get_full_financial_context_from_mcp_shared, if_neg huser,
    aggLoop_benign http toolsToFetch [] [] hbenign, List.nil_append, hmsgs]
  have hne2 : (msgs.map PyJson.str).isEmpty = false := by
    cases msgs with
    | nil => exact absurd rfl hne
    | cons m rest => rfl
  rw [aggFinal, hne2]
  simp only [Bool.false_eq_true, if_false, joinErrors_map_str]

/-- Witness for C2: one category times out, the other five succeed; the
result is the bare error dict and all six fetches were attempted. -/
theorem C2_error_discards_payloads_witness :
    get_full_financial_context_from_mcp_shared "999" c2Oracle =
      (.ok (.obj [("status", .str "error"),
        ("message", .str ("MCP Data Fetch Errors: " ++
          String.intercalate "; " ["MCP request timed out."])),
        ("details", .str "Some financial data could not be fetched. Check MCP logs.")]),
       toolsToFetch.map (fun p => p.1)) :=
  C2_error_discards_payloads "999" c2Oracle ["MCP request timed out."]
    (by decide) (by decide) (by decide) (by decide)

/-- C3 (code-bug evidence): an empty `user_id` returns the structured
`missing_user_id` dict without any fetch, but — contrary to the claim and to
every other error return of the aggregator — that dict carries no `status`
key at all, only `error`/`message`/`details`. -/
theorem C3_missing_user_id (http : String → HttpResult) :
    get_full_financial_context_from_mcp_shared "" http = (.ok missingUserIdResult, []) ∧
    jsonField missingUserIdResult "status" = none ∧
    jsonField missingUserIdResult "error" = some (.str "missing_user_id") ∧
    jsonField missingUserIdResult "message" =
      some (.str "User ID is required to fetch data from MCP.") :=
  ⟨rfl, rfl, rfl, rfl⟩

/-- Outcomes not classified as failures are benign for the loop. -/
theorem benign_of_not_err {d : PyJson} (h : isErrDict d = false) :
    benignOutcome d = true := by
  rw [benignOutcome, h]
  rfl

/-- Baseline except the net-worth payload is the (truthy, non-dict) string
`"high"`: its fetch succeeds, yet the salary lookup must then crash. -/
def c4Oracle : String → HttpResult := fun tool =>
  if tool = "fetch_net_worth" then mkEnvelope "\x7b\"netWorth\": \"high\"\x7d"
  else baselineOracle tool

/-- Counterexample to C4 as stated: on `c4Oracle` all six category fetches
succeed (none is classified as a failure; the net-worth payload is the
non-empty string `"high"`, whose `salary` field is simply absent), yet the
aggregator does not return `success` with `salary = 0` — it raises an
uncaught `AttributeError` from `.get("salary", 0)` on the non-dict payload. -/
theorem C4_counterexample :
    toolsToFetch.all (fun p => !isErrDict (fetch_data_from_mcp p.1 (c4Oracle p.1))) = true ∧
    fetch_data_from_mcp "fetch_net_worth" (c4Oracle "fetch_net_worth") = .str "high" ∧
    get_full_financial_context_from_mcp_shared "999" c4Oracle =
      (.exn .attributeError, toolsToFetch.map (fun p => p.1)) :=
  ⟨by decide, rfl, rfl⟩

/-- C4 as amended: when all six category fetches succeed and the net-worth
payload is a mapping `nw`, the aggregator returns status `success` with all
six payloads populated and `salary` equal to `nw`'s `salary` field,
defaulting to `0` when absent. -/
theorem C4_success_full_context (user : String) (http : String → HttpResult)
    (nw : List (String × PyJson))
    (huser : user ≠ "")
    (hok : ∀ p ∈ toolsToFetch, isErrDict (fetch_data_from_mcp p.1 (http p.1)) = false)
    (hnw : fetch_data_from_mcp "fetch_net_worth" (http "fetch_net_worth") = .obj nw) :
    get_full_financial_context_from_mcp_shared user http =
      (.ok (.obj [
        ("bank_txns", fetch_data_from_mcp "fetch_bank_transactions" (http "fetch_bank_transactions")),
        ("credit_rpt", fetch_data_from_mcp "fetch_credit_report" (http "fetch_credit_report")),
        ("epf", fetch_data_from_mcp "fetch_epf_details" (http "fetch_epf_details")),
        ("mf_txns", fetch_data_from_mcp "fetch_mf_transactions" (http "fetch_mf_transactions")),
        ("net_worth", .obj nw),
        ("stocks", fetch_data_from_mcp "fetch_stock_transactions" (http "fetch_stock_transactions")),
        ("salary", (dictGet nw "salary").getD (.num "0")),
        ("status", .str "success")]),
       toolsToFetch.map (fun p => p.1)) := by
  have h1 : isErrDict (fetch_data_from_mcp "fetch_bank_transactions"
      (http "fetch_bank_transactions")) = false :=
    hok ("fetch_bank_transactions", "bank_txns") (by decide)
  have h2 : isErrDict (fetch_data_from_mcp "fetch_credit_report"
      (http "fetch_credit_report")) = false :=
    hok ("fetch_credit_report", "credit_rpt") (by decide)
  have h3 : isErrDict (fetch_data_from_mcp "fetch_epf_details"
      (http "fetch_epf_details")) = false :=
    hok ("fetch_epf_details", "epf") (by decide)
  have h4 : isErrDict (fetch_data_from_mcp "fetch_mf_transactions"
      (http "fetch_mf_transactions")) = false :=
    hok ("fetch_mf_transactions", "mf_txns") (by decide)
  have h5 : isErrDict (fetch_data_from_mcp "fetch_net_worth"
      (http "fetch_net_worth")) = false :=
    hok ("fetch_net_worth", "net_worth") (by decide)
  have h6 : isErrDict (fetch_data_from_mcp "fetch_stock_transactions"
      (http "fetch_stock_transactions")) = false :=
    hok ("fetch_stock_transactions", "stocks") (by decide)
  rw [get_full_financial_context_from_mcp_shared, if_neg huser,
    aggLoop_benign http toolsToFetch [] []
      (fun p hp => benign_of_not_err (hok p hp))]
  simp only [toolsToFetch, List.foldl_cons, List.foldl_nil, List.filterMap_cons,
    List.filterMap_nil, List.map_cons, List.map_nil, List.nil_append,
    slotVal, msgOf, h1, h2, h3, h4, h5, h6, Bool.false_eq_true, if_false]
  rw [hnw]
  simp [aggFinal, pyDictSet, dictGet]

/-- Witness for the amended C4 on the baseline oracle, with the spec's worked
example net-worth payload: derived salary is its `salary` field. -/
theorem C4_success_full_context_witness :
    get_full_financial_context_from_mcp_shared "999" baselineOracle =
      (.ok (.obj [
        ("bank_txns", fetch_data_from_mcp "fetch_bank_transactions"
          (baselineOracle "fetch_bank_transactions")),
        ("credit_rpt", fetch_data_from_mcp "fetch_credit_report"
          (baselineOracle "fetch_credit_report")),
        ("epf", fetch_data_from_mcp "fetch_epf_details" (baselineOracle "fetch_epf_details")),
        ("mf_txns", fetch_data_from_mcp "fetch_mf_transactions"
          (baselineOracle "fetch_mf_transactions")),
        ("net_worth", .obj [("salary", .num "150000"), ("assets", .num "500000")]),
        ("stocks", fetch_data_from_mcp "fetch_stock_transactions"
          (baselineOracle "fetch_stock_transactions")),
        ("salary", (dictGet [("salary", PyJson.num "150000"), ("assets", PyJson.num "500000")]
          "salary").getD (.num "0")),
        ("status", .str "success")]),
       toolsToFetch.map (fun p => p.1)) :=
  C4_success_full_context "999" baselineOracle
    [("salary", .num "150000"), ("assets", .num "500000")]
    (by decide) (by decide) (by decide)

/-- Baseline except the net-worth payload is the non-empty list `[1]` — a
successful fetch whose payload is not a mapping. -/
def c9AttrOracle : String → HttpResult := fun tool =>
  if tool = "fetch_net_worth" then mkEnvelope "\x7b\"netWorth\": [1]\x7d"
  else baselineOracle tool

/-- Baseline except the bank payload is the dict `(error = x)` with no
`message` entry — genuine remote data of an unfortunate shape. -/
def c9KeyOracle : String → HttpResult := fun tool =>
  if tool = "fetch_bank_transactions" then
    mkEnvelope "\x7b\"bankTransactions\": \x7b\"error\": \"x\"\x7d\x7d"
  else baselineOracle tool

/-- C9 (code-bug evidence): the aggregator body has no `try`/`except`, and
two of its expressions raise on remote data every fetch handled without
error: a non-dict net-worth payload makes `.get("salary", 0)` raise
`AttributeError` after all six fetches succeeded, and a payload dict carrying
`"error"` but no `"message"` makes `data["message"]` raise `KeyError` — in
both runs the caller gets an uncaught exception, not a structured result.
(The Record Fetcher itself is total here by construction: every one of its
paths, including its blanket `except Exception`, returns a dict.) -/
theorem C9_unhandled_exception_paths :
    get_full_financial_context_from_mcp_shared "999" c9AttrOracle =
      (.exn .attributeError, toolsToFetch.map (fun p => p.1)) ∧
    toolsToFetch.all (fun p => !isErrDict (fetch_data_from_mcp p.1 (c9AttrOracle p.1))) = true ∧
    get_full_financial_context_from_mcp_shared "999" c9KeyOracle =
      (.exn .keyError, ["fetch_bank_transactions"]) :=
  ⟨rfl, by decide, rfl⟩

/-- Condition `isinstance(data, dict) and "error" in data`, phrased through `dictGet`. -/
theorem isErrDict_obj_iff (kvs : List (String × PyJson)) :
    isErrDict (.obj kvs) = true ↔ (dictGet kvs "error").isSome = true := by
  rw [isErrDict, dictGet, Option.isSome_map', List.any_eq_true]
  rw [List.find?_isSome]

/-- Baseline except the bank payload is the dict
`(error = x, message = fake)` — genuine remote data whose shape collides
with the aggregator's failure sentinel. -/
def c10Oracle : String → HttpResult := fun tool =>
  if tool = "fetch_bank_transactions" then
    mkEnvelope "\x7b\"bankTransactions\": \x7b\"error\": \"x\", \"message\": \"fake\"\x7d\x7d"
  else baselineOracle tool

/-- C10: a successful fetch whose payload is a dict containing the key
`"error"` (and not login-shaped) is treated by the loop exactly like a fetch
failure: the iteration stores the category's default empty slot, appends the
payload's `"message"` value to the error list and continues (first conjunct);
and when every other category succeeds, the whole aggregation therefore ends
with status `error`, the payload's message as the joined error text, and no
payloads (second conjunct). -/
theorem C10_error_key_payload_misclassified :
    (∀ (http : String → HttpResult) (tool key : String) (rest : List (String × String))
       (fd : List (String × PyJson)) (errs : List PyJson)
       (kvs : List (String × PyJson)) (m : PyJson),
       fetch_data_from_mcp tool (http tool) = .obj kvs →
       (dictGet kvs "error").isSome = true →
       dictGet kvs "message" = some m →
       errIsLogin (.obj kvs) = false →
       aggLoop http ((tool, key) :: rest) fd errs =
         ((aggLoop http rest (pyDictSet fd key (defaultFor key)) (errs ++ [m])).1,
          tool :: (aggLoop http rest (pyDictSet fd key (defaultFor key)) (errs ++ [m])).2)) ∧
    (∀ (user : String) (http : String → HttpResult) (L1 L2 : List (String × String))
       (tool key : String) (kvs : List (String × PyJson)) (ms : String),
       toolsToFetch = L1 ++ (tool, key) :: L2 →
       user ≠ "" →
       fetch_data_from_mcp tool (http tool) = .obj kvs →
       (dictGet kvs "error").isSome = true →
       dictGet kvs "message" = some (.str ms) →
       errIsLogin (.obj kvs) = false →
       (∀ p ∈ L1, isErrDict (fetch_data_from_mcp p.1 (http p.1)) = false) →
       (∀ p ∈ L2, isErrDict (fetch_data_from_mcp p.1 (http p.1)) = false) →
       get_full_financial_context_from_mcp_shared user http =
         (.ok (.obj [("status", .str "error"),
           ("message", .str ("MCP Data Fetch Errors: " ++ String.intercalate "; " [ms])),
           ("details", .str "Some financial data could not be fetched. Check MCP logs.")]),
          toolsToFetch.map (fun p => p.1))) := by
  constructor
  · intro http tool key rest fd errs kvs m hfetch herr hmsg hnl
    have hed : isErrDict (PyJson.obj kvs) = true := (isErrDict_obj_iff kvs).mpr herr
    simp only [aggLoop, hfetch, hed, if_true, jsonField, hmsg, hnl,
      Bool.false_eq_true, if_false]
  · intro user http L1 L2 tool key kvs ms hsplit huser hfetch herr hmsg hnl hok1 hok2
    have hed : isErrDict (PyJson.obj kvs) = true := (isErrDict_obj_iff kvs).mpr herr
    have hbenignHead : benignOutcome (fetch_data_from_mcp tool (http tool)) = true := by
      rw [hfetch, benignOutcome, hed]
      simp only [Bool.not_true, Bool.false_or, Bool.and_eq_true, Bool.not_eq_true']
      exact ⟨by rw [jsonField, hmsg]; rfl, hnl⟩
    have hbenign : ∀ p ∈ toolsToFetch, benignOutcome (fetch_data_from_mcp p.1 (http p.1)) = true := by
      intro p hp
      rw [hsplit] at hp
      rcases List.mem_append.mp hp with hp1 | hp2
      · exact benign_of_not_err (hok1 p hp1)
      · rcases List.mem_cons.mp hp2 with rfl | hp3
        · exact hbenignHead
        · exact benign_of_not_err (hok2 p hp3)
    rw [get_full_financial_context_from_mcp_shared, if_neg huser,
      aggLoop_benign http toolsToFetch [] [] hbenign, List.nil_append]
    have hfm : toolsToFetch.filterMap
        (fun p => msgOf (fetch_data_from_mcp p.1 (http p.1))) = [.str ms] := by
      rw [hsplit, List.filterMap_append, List.filterMap_cons]
      have hfm1 : L1.filterMap (fun p => msgOf (fetch_data_from_mcp p.1 (http p.1))) = [] := by
        rw [List.filterMap_eq_nil_iff]
        intro p hp
        rw [msgOf, hok1 p hp]
        rfl
      have hfm2 : L2.filterMap (fun p => msgOf (fetch_data_from_mcp p.1 (http p.1))) = [] := by
        rw [List.filterMap_eq_nil_iff]
        intro p hp
        rw [msgOf, hok2 p hp]
        rfl
      rw [hfm1, hfm2]
      simp only [msgOf, hfetch, hed, if_true, jsonField, hmsg, List.nil_append,
        List.append_nil]
    rw [hfm]
    have hms : [PyJson.str ms] = ([ms].map PyJson.str) := rfl
    rw [hms, aggFinal, show (([ms].map PyJson.str).isEmpty) = false from rfl]
    simp only [Bool.false_eq_true, if_false, joinErrors_map_str]

/-- Witness for C10: the bank category's payload is
`(error = x, message = fake)`; all six fetches run, yet the aggregate is the
error dict whose joined message is the payload's own `"fake"`. -/
theorem C10_error_key_payload_misclassified_witness :
    get_full_financial_context_from_mcp_shared "999" c10Oracle =
      (.ok (.obj [("status", .str "error"),
        ("message", .str ("MCP Data Fetch Errors: " ++ String.intercalate "; " ["fake"])),
        ("details", .str "Some financial data could not be fetched. Check MCP logs.")]),
       toolsToFetch.map (fun p => p.1)) :=
  C10_error_key_payload_misclassified.2 "999" c10Oracle []
    [("fetch_credit_report", "credit_rpt"), ("fetch_epf_details", "epf"),
     ("fetch_mf_transactions", "mf_txns"), ("fetch_net_worth", "net_worth"),
     ("fetch_stock_transactions", "stocks")]
    "fetch_bank_transactions" "bank_txns"
    [("error", .str "x"), ("message", .str "fake")] "fake"
    rfl (by decide) (by decide) (by decide) (by decide) (by decide)
    (by decide) (by decide)

/-- The spec's worked extraction example. -/
def exC5 : String := "Sure! Here is the result: \x7b\"a\": 1, \"b\": \x7b\"c\": 2\x7d\x7d Thanks."

/-- The span the scan finds inside `exC5`. -/
def exC5Span : String := "\x7b\"a\": 1, \"b\": \x7b\"c\": 2\x7d\x7d"

/-- C5: the extraction scan of both extraction sites locates exactly the
leftmost balanced one-level-nested brace span of the input — whatever it
returns is such a span, occurs in the text, no such span starts earlier, and
it is the unique such span at its start position (first conjunct); when it
returns nothing, no such span occurs at all (second conjunct); the located
span is then parsed as JSON (third conjunct); and on the spec's worked
example both sites return the parsed object, discarding the surrounding
text (last conjuncts). -/
theorem C5_first_balanced_span :
    (∀ s t, firstJsonSpan s = some t →
      ∃ pre post, s.data = pre ++ t.data ++ post ∧ IsSpan t.data ∧
        ∀ pre2 t2 post2, s.data = pre2 ++ t2 ++ post2 → IsSpan t2 →
          pre.length ≤ pre2.length ∧ (pre2.length = pre.length → t2 = t.data)) ∧
    (∀ s, firstJsonSpan s = none →
      ∀ pre t post, s.data = pre ++ t ++ post → ¬ IsSpan t) ∧
    (∀ s t parsed, firstJsonSpan s = some t → jsonLoads t = .ok parsed →
      callGeminiExtract s = .obj [("status", .str "success"), ("data", parsed)]) ∧
    callGeminiExtract exC5 =
      .obj [("status", .str "success"),
        ("data", .obj [("a", .num "1"), ("b", .obj [("c", .num "2")])])] ∧
    analyzeExtract exC5 =
      .obj [("a", .num "1"), ("b", .obj [("c", .num "2")]), ("status", .str "success")] := by
  refine ⟨?_, ?_, ?_, rfl, rfl⟩
  · intro s t h
    rw [firstJsonSpan, Option.map_eq_some'] at h
    obtain ⟨l, hl, rfl⟩ := h
    exact searchSpan_some s.data l hl
  · intro s h
    rw [firstJsonSpan, Option.map_eq_none'] at h
    exact searchSpan_none s.data h
  · intro s t parsed h hp
    simp only [callGeminiExtract, h, hp]

/-- Witness for C5: the first conjunct applied to the worked example and its
span, whose location hypothesis evaluates concretely. -/
theorem C5_first_balanced_span_witness :
    ∃ pre post, exC5.data = pre ++ exC5Span.data ++ post ∧ IsSpan exC5Span.data ∧
      ∀ pre2 t2 post2, exC5.data = pre2 ++ t2 ++ post2 → IsSpan t2 →
        pre.length ≤ pre2.length ∧ (pre2.length = pre.length → t2 = exC5Span.data) :=
  C5_first_balanced_span.1 exC5 exC5Span (by rfl)

/-- A text whose first balanced span is not valid JSON, with surrounding
noise so that the span differs from the whole raw text. -/
def c6Raw : String := "xx\x7b\"a\": \x7dyy"

/-- The failed span inside `c6Raw`. -/
def c6Span : String := "\x7b\"a\": \x7d"

/-- Counterexample to C5/C6's span-retention wording: on `c6Raw` both sites
fail with the malformed-JSON dict whose `details` is only the JSON parser's
positional message and whose `gemini_response` is the full raw text — no
field of either result equals the failed span, and the diagnostic detail
does not contain it. -/
theorem C6_counterexample :
    firstJsonSpan c6Raw = some c6Span ∧
    callGeminiExtract c6Raw =
      .obj [("status", .str "error"), ("message", .str "Invalid JSON from Gemini"),
        ("details", .str "Expecting value: line 1 column 7 (char 6)"),
        ("gemini_response", .str c6Raw)] ∧
    analyzeExtract c6Raw =
      .obj [("status", .str "error"), ("message", .str "Invalid JSON from Gemini for analysis"),
        ("details", .str "Expecting value: line 1 column 7 (char 6)"),
        ("gemini_response", .str c6Raw)] ∧
    [("status", PyJson.str "error"), ("message", PyJson.str "Invalid JSON from Gemini"),
        ("details", PyJson.str "Expecting value: line 1 column 7 (char 6)"),
        ("gemini_response", PyJson.str c6Raw)].all
      (fun kv => !PyJson.beq kv.2 (PyJson.str c6Span)) = true ∧
    containsSub "Expecting value: line 1 column 7 (char 6)" c6Span = false :=
  ⟨rfl, rfl, rfl, by decide, by decide⟩

/-- C6 as amended: with no balanced span, both sites fail retaining the full
raw text (`_call_gemini_and_parse_json` in both `details` and
`gemini_response`; the `analyze_financial_data` scan in `details`); with a
span that is not valid JSON, both fail retaining the raw text in
`gemini_response` and the JSON parser's positional message — not the span
itself — as `details`. -/
theorem C6_extraction_failure_diagnostics :
    (∀ raw, firstJsonSpan raw = none →
      callGeminiExtract raw =
        .obj [("status", .str "error"), ("message", .str "JSON extraction/parsing failed"),
          ("details", .str ("No valid JSON object found in Gemini's response. Raw: " ++ raw)),
          ("gemini_response", .str raw)] ∧
      analyzeExtract raw =
        .obj [("status", .str "error"),
          ("message", .str "Gemini returned invalid JSON for analysis."),
          ("details", .str raw)]) ∧
    (∀ raw span e, firstJsonSpan raw = some span → jsonLoads span = .error e →
      callGeminiExtract raw =
        .obj [("status", .str "error"), ("message", .str "Invalid JSON from Gemini"),
          ("details", .str (renderJsonErr span e)), ("gemini_response", .str raw)] ∧
      analyzeExtract raw =
        .obj [("status", .str "error"),
          ("message", .str "Invalid JSON from Gemini for analysis"),
          ("details", .str (renderJsonErr span e)), ("gemini_response", .str raw)]) := by
  constructor
  · intro raw h
    constructor
    · simp only [callGeminiExtract, h]
    · simp only [analyzeExtract, h]
  · intro raw span e h hp
    constructor
    · simp only [callGeminiExtract, h, hp]
    · simp only [analyzeExtract, h, hp]

/-- Witness for the amended C6 on a spanless input. -/
theorem C6_extraction_failure_diagnostics_witness :
    callGeminiExtract "no braces here" =
      .obj [("status", .str "error"), ("message", .str "JSON extraction/parsing failed"),
        ("details", .str ("No valid JSON object found in Gemini's response. Raw: " ++
          "no braces here")),
        ("gemini_response", .str "no braces here")] ∧
    analyzeExtract "no braces here" =
      .obj [("status", .str "error"),
        ("message", .str "Gemini returned invalid JSON for analysis."),
        ("details", .str "no braces here")] :=
  C6_extraction_failure_diagnostics.1 "no braces here" (by rfl)

/-- C7: for a category with expected field `ek` and a successfully parsed
inner JSON object that does not satisfy the login condition, the Record
Fetcher returns `no_data` when the field is absent (first conjunct) or
present but empty/falsy (second), and exactly the field's value otherwise
(third); a category with no expected field gets the whole parsed object when
it is non-empty (fourth). -/
theorem C7_expected_field_lookup (tool : String) (http : String → HttpResult)
    (env : PyJson) (raw : String) (kvs : List (String × PyJson))
    (henv : http tool = .ok env)
    (hinner : mcpInner env = .ok (some (.str raw)))
    (hparse : jsonLoads raw = .ok (.obj kvs))
    (hnologin : loginCondOf kvs = none) :
    (∀ ek, expectedKey tool = some ek → dictGet kvs ek = none →
      fetch_data_from_mcp tool (http tool) =
        mcpErr "no_data" ("MCP returned no data for " ++ tool ++ ".")) ∧
    (∀ ek v, expectedKey tool = some ek → dictGet kvs ek = some v → pyTruthy v = false →
      fetch_data_from_mcp tool (http tool) =
        mcpErr "no_data" ("MCP returned no data for " ++ tool ++ ".")) ∧
    (∀ ek v, expectedKey tool = some ek → dictGet kvs ek = some v → pyTruthy v = true →
      fetch_data_from_mcp tool (http tool) = v) ∧
    (expectedKey tool = none → kvs ≠ [] →
      fetch_data_from_mcp tool (http tool) = .obj kvs) := by
  refine ⟨?_, ?_, ?_, ?_⟩
  · intro ek hek hv
    simp only [fetch_data_from_mcp, henv, hinner, hparse, hnologin, hek, hv]
  · intro ek v hek hv ht
    simp only [fetch_data_from_mcp, henv, hinner, hparse, hnologin, hek, hv, ht,
      Bool.false_eq_true, if_false]
  · intro ek v hek hv ht
    simp only [fetch_data_from_mcp, henv, hinner, hparse, hnologin, hek, hv, ht, if_true]
  · intro hek hne
    have hne2 : kvs.isEmpty = false := by
      cases kvs with
      | nil => exact absurd rfl hne
      | cons a l => rfl
    simp only [fetch_data_from_mcp, henv, hinner, hparse, hnologin, hek, hne2,
      Bool.false_eq_true, if_false]

/-- An oracle whose inner text carries an empty net-worth mapping. -/
def c7Oracle : String → HttpResult := fun _ =>
  mkEnvelope "\x7b\"netWorth\": \x7b\x7d\x7d"

/-- Witness for C7: `netWorth` is present but the empty dict, so the fetch
for the net-worth category reports `no_data`. -/
theorem C7_expected_field_lookup_witness :
    fetch_data_from_mcp "fetch_net_worth" (c7Oracle "fetch_net_worth") =
      mcpErr "no_data" ("MCP returned no data for " ++ "fetch_net_worth" ++ ".") :=
  (C7_expected_field_lookup "fetch_net_worth" c7Oracle
    (envelopeJson "\x7b\"netWorth\": \x7b\x7d\x7d") "\x7b\"netWorth\": \x7b\x7d\x7d"
    [("netWorth", .obj [])] rfl rfl (by rfl) rfl).2.1
    "netWorth" (.obj []) rfl rfl rfl

/-- An inner text declaring login-required with an *empty* `login_url`. -/
def c8EmptyLoginInner : String :=
  "\x7b\"status\": \"login_required\", \"login_url\": \"\"\x7d"

/-- A non-JSON inner text containing both markers but no quoted URL. -/
def c8MarkerOnlyInner : String := "login_required login_url"

/-- Counterexample to C8 as stated: the inner text parses as JSON declaring
`status = "login_required"` *with a `login_url` field*, but that field is
empty, so the fetcher does not return `LoginRequired` — it falls through to
the field lookup and reports `no_data`; and when a malformed inner text
contains both markers but the pattern matches no quoted URL, the fetcher
still returns `LoginRequired`, with the fixed mock URL rather than an
extracted one. -/
theorem C8_counterexample :
    jsonLoads c8EmptyLoginInner =
      .ok (.obj [("status", .str "login_required"), ("login_url", .str "")]) ∧
    fetch_data_from_mcp "fetch_net_worth" (mkEnvelope c8EmptyLoginInner) =
      mcpErr "no_data" "MCP returned no data for fetch_net_worth." ∧
    jsonField (fetch_data_from_mcp "fetch_net_worth" (mkEnvelope c8EmptyLoginInner))
      "error" ≠ some (.str "login_required") ∧
    jsonLoads c8MarkerOnlyInner = .error ("Expecting value", 0) ∧
    extractLoginUrl c8MarkerOnlyInner = none ∧
    fetch_data_from_mcp "fetch_net_worth" (mkEnvelope c8MarkerOnlyInner) =
      .obj [("error", .str "login_required"), ("message", .str loginRequiredMsg),
        ("login_url", .str ("http://localhost:8080/mockWebPage?sessionId=" ++
          get_mcp_session_id))] :=
  ⟨rfl, rfl, by decide, rfl, rfl, rfl⟩

/-- C8 as amended: a non-JSON inner text with both markers yields
`LoginRequired` whose URL is the pattern-match extraction, falling back to
the fixed mock URL when the pattern finds no quoted URL (first conjunct);
without both markers it yields the invalid-JSON shape error (second); and an
inner JSON object declaring `status = "login_required"` with a non-empty
(truthy) `login_url` yields `LoginRequired` with exactly that URL (third). -/
theorem C8_login_detection (tool : String) (http : String → HttpResult) :
    (∀ (env : PyJson) (raw : String) (e : JErr),
      http tool = .ok env → mcpInner env = .ok (some (.str raw)) →
      jsonLoads raw = .error e →
      containsSub raw "login_required" = true → containsSub raw "login_url" = true →
      fetch_data_from_mcp tool (http tool) =
        .obj [("error", .str "login_required"), ("message", .str loginRequiredMsg),
          ("login_url", .str ((extractLoginUrl raw).getD
            ("http://localhost:8080/mockWebPage?sessionId=" ++ get_mcp_session_id)))]) ∧
    (∀ (env : PyJson) (raw : String) (e : JErr),
      http tool = .ok env → mcpInner env = .ok (some (.str raw)) →
      jsonLoads raw = .error e →
      (containsSub raw "login_required" && containsSub raw "login_url") = false →
      fetch_data_from_mcp tool (http tool) =
        mcpErr "invalid_json" "MCP returned invalid JSON.") ∧
    (∀ (env : PyJson) (raw : String) (kvs : List (String × PyJson)) (u : PyJson),
      http tool = .ok env → mcpInner env = .ok (some (.str raw)) →
      jsonLoads raw = .ok (.obj kvs) →
      dictGet kvs "status" = some (.str "login_required") →
      dictGet kvs "login_url" = some u → pyTruthy u = true →
      fetch_data_from_mcp tool (http tool) =
        .obj [("error", .str "login_required"), ("message", .str loginRequiredMsg),
          ("login_url", u)]) := by
  refine ⟨?_, ?_, ?_⟩
  · intro env raw e henv hinner hparse hm1 hm2
    simp only [fetch_data_from_mcp, henv, hinner, hparse, hm1, hm2, Bool.and_self,
      if_true]
  · intro env raw e henv hinner hparse hm
    simp only [fetch_data_from_mcp, henv, hinner, hparse, hm, Bool.false_eq_true, if_false]
  · intro env raw kvs u henv hinner hparse hstat hurl htru
    have hcond : loginCondOf kvs = some u := by
      simp only [loginCondOf, hstat, hurl, htru, if_true]
    simp only [fetch_data_from_mcp, henv, hinner, hparse, hcond]

/-- An oracle whose inner text is the malformed login fragment with a quoted
URL. -/
def c8Oracle : String → HttpResult := fun _ =>
  mkEnvelope "status login_required here \"login_url\": \"http://m\" oops"

/-- Witness for the amended C8: the malformed-fragment path extracts
`http://m` by pattern match. -/
theorem C8_login_detection_witness :
    fetch_data_from_mcp "fetch_net_worth" (c8Oracle "fetch_net_worth") =
      .obj [("error", .str "login_required"), ("message", .str loginRequiredMsg),
        ("login_url", .str ((extractLoginUrl
          "status login_required here \"login_url\": \"http://m\" oops").getD
          ("http://localhost:8080/mockWebPage?sessionId=" ++ get_mcp_session_id)))] :=
  (C8_login_detection "fetch_net_worth" c8Oracle).1
    (envelopeJson "status login_required here \"login_url\": \"http://m\" oops")
    "status login_required here \"login_url\": \"http://m\" oops"
    ("Expecting value", 0) rfl rfl rfl (by rfl) (by rfl)
